import Mathlib

/-!
Verification of the PL/0 bytecode virtual machine (`src/pl0_vm.rs`,
`src/opcodes.rs`, `src/main.rs`) against its natural-language specification.

The Rust sources are shallowly embedded:

* machine bytes are `Nat` (each element of a loaded program or of the runtime
  stack is a `u8`, i.e. `< 256`);
* the width-tagged `Data` wrapper (`B16`/`B32`/`B64`) is mirrored by the tag
  `Width` plus the mathematical signed value (`Data::i64`) of the payload;
* signed machine integers are `Int` with explicit two's-complement narrowing
  (`% 2 ^ (8 * w)`); Rust's `+`, `-`, `*` on `i64` are modelled with the
  release-profile two's-complement wrapping semantics, while division keeps
  Rust's unconditional panics on a zero divisor and on `i64::MIN / -1`;
* fallible reads return `Option`; paths that `panic!` in the host (index out
  of bounds, `Option::unwrap` on `None`, `expect`, `todo!`, division faults)
  are the explicit `hostPanic` results, kept distinct from the structured
  errors the interpreter reports through `error(&t!(...))` before halting;
* the process's standard streams are not modelled: `OutputValue`/`PutString`
  only mutate state, and `InputToAddr` consumes a list of already-parsed
  valid `i64` inputs (an empty list corresponds to blocking forever).
-/

/-! ## Little-endian bytes and two's-complement narrowing -/

/-- Value of a little-endian byte sequence (`u16::from_le_bytes`,
`u64::from_le_bytes`, ... on the mathematical level). -/
def leVal : List Nat → Nat
  | [] => 0
  | b :: bs => b + 256 * leVal bs

/-- The `w` little-endian bytes of `n % 2 ^ (8 * w)` (`to_le_bytes`). -/
def toLeBytes : Nat → Nat → List Nat
  | 0, _ => []
  | w + 1, n => n % 256 :: toLeBytes w (n / 256)

/-- Reinterpret an unsigned `w`-byte value as a signed one
(two's complement: `i16::from_le_bytes` and friends). -/
def toSigned (w : Nat) (n : Nat) : Int :=
  if n < 2 ^ (8 * w - 1) then (n : Int) else (n : Int) - 2 ^ (8 * w)

/-- The unsigned `w`-byte two's-complement representation of a signed value
(what `to_le_bytes` serialises). -/
def toRep (w : Nat) (v : Int) : Nat := (v % (2 ^ (8 * w) : Int)).toNat

/-- Wrap an integer to `i64` (release-profile two's-complement overflow). -/
def asI64 (v : Int) : Int := toSigned 8 (toRep 8 v)

/-- Rust's `as usize` cast of an `i64` value. -/
def usizeOfInt (v : Int) : Nat := (v % ((2 : Int) ^ 64)).toNat

/-! ## The opcode table (`opcodes.rs`) -/

/-- Mirror of `enum OpCode`. -/
inductive OpCode
  | PushValueLocalVar
  | PushValueMainVar
  | PushValueGlobalVar
  | PushAddressLocalVar
  | PushAddressMainVar
  | PushAddressGlobalVar
  | PushConstant
  | StoreValue
  | OutputValue
  | InputToAddr
  | Minusify
  | IsOdd
  | OpAdd
  | OpSubtract
  | OpMultiply
  | OpDivide
  | CompareEq
  | CompareNotEq
  | CompareLT
  | CompareGT
  | CompareLTEq
  | CompareGTEq
  | CallProc
  | ReturnProc
  | Jump
  | JumpIfFalse
  | EntryProc
  | PutString
  | Pop
  | Swap
  | EndOfCode
  | Put
  | Get
  | OpAddAddr
deriving DecidableEq

/-- `OpCode::try_from(byte)`: the `#[repr(u8)]` discriminants `0x00`..`0x21`;
any other byte is a decode error. -/
def decodeOp (b : Nat) : Option OpCode :=
  match b with
  | 0x00 => some .PushValueLocalVar
  | 0x01 => some .PushValueMainVar
  | 0x02 => some .PushValueGlobalVar
  | 0x03 => some .PushAddressLocalVar
  | 0x04 => some .PushAddressMainVar
  | 0x05 => some .PushAddressGlobalVar
  | 0x06 => some .PushConstant
  | 0x07 => some .StoreValue
  | 0x08 => some .OutputValue
  | 0x09 => some .InputToAddr
  | 0x0A => some .Minusify
  | 0x0B => some .IsOdd
  | 0x0C => some .OpAdd
  | 0x0D => some .OpSubtract
  | 0x0E => some .OpMultiply
  | 0x0F => some .OpDivide
  | 0x10 => some .CompareEq
  | 0x11 => some .CompareNotEq
  | 0x12 => some .CompareLT
  | 0x13 => some .CompareGT
  | 0x14 => some .CompareLTEq
  | 0x15 => some .CompareGTEq
  | 0x16 => some .CallProc
  | 0x17 => some .ReturnProc
  | 0x18 => some .Jump
  | 0x19 => some .JumpIfFalse
  | 0x1A => some .EntryProc
  | 0x1B => some .PutString
  | 0x1C => some .Pop
  | 0x1D => some .Swap
  | 0x1E => some .EndOfCode
  | 0x1F => some .Put
  | 0x20 => some .Get
  | 0x21 => some .OpAddAddr
  | _ => none

/-! ## VM data model (`pl0_vm.rs`) -/

/-- The width tag of `enum Data` (`B16`/`B32`/`B64`): the configured data
width of a loaded program. -/
inductive Width
  | b16
  | b32
  | b64
deriving DecidableEq

/-- `PL0VM::data_size`. -/
def Width.dataSize : Width → Nat
  | .b16 => 2
  | .b32 => 4
  | .b64 => 8

/-- `struct Procedure { start_pos, frame_ptr }`. -/
structure Procedure where
  startPos : Nat
  framePtr : Nat
deriving DecidableEq

/-- The structured errors the interpreter reports via `error(&t!(...))`
before aborting the current pass (kind only: rendering is external). -/
inductive VmErr
  | invalidFile
  | archInvalid
  | failedArchRead
  | unreachableCode
  | preloadError
  | invalidPreloadProcedure
  | invalidPc
  | invalidArgRead
  | invalidStackRead
  | invalidConstantRead
  | unknownOpcode
  | enterInvalidProc
  | callInvalidProc
  | invalidLocalVarVal
  | invalidMainVarVal
  | invalidGlobalVarVal
  | invalidLocalVarAddr
  | invalidMainVarAddr
  | invalidGlobalVarAddr
  | invalidConstant
  | invalidStr
  | invalidJump
  | invalidNumberInput
deriving DecidableEq

/-- The ways the Rust process panics (host traps, as opposed to the
structured `VmErr` diagnostics). -/
inductive PanicKind
  | indexOutOfBounds
  | unwrapNone
  | divideByZero
  | divOverflow
  | invalidVarOffset
  | sliceTooShort
  | usizeOverflow
  | todoUnimplemented
  | outOfFuel
deriving DecidableEq

/-- Result of a computation that can panic in the host. -/
inductive RRes (α : Type)
  | ok (a : α)
  | hostPanic (p : PanicKind)
deriving DecidableEq

/-- Execution state of `PL0VM::execute`'s main loop, together with the
immutable fields of `PL0VM` it closes over. -/
structure VMState where
  program : List Nat
  bits : Width
  debug : Bool
  procedures : List Procedure
  constants : List Int
  pc : Nat
  stack : List Nat
  fp : Nat
  curProc : Nat
  input : List Int
deriving DecidableEq

/-! ## Shared read/write helpers of `PL0VM` -/

/-- `PL0VM::read_arg`: the `i16` at little-endian byte offset `offset`,
`none` when the two bytes are not all inside the program. -/
def readArg (program : List Nat) (offset : Nat) : Option Int :=
  if offset + 2 ≤ program.length then
    some (toSigned 2 (leVal ((program.drop offset).take 2)))
  else none

/-- `v.get(off..)`: the suffix slice, `none` when `off` is past the end. -/
def getSuffix (l : List Nat) (off : Nat) : Option (List Nat) :=
  if off ≤ l.length then some (l.drop off) else none

/-- `PL0VM::bytes_to_data` applied to an optional slice: decodes the first
`data_size` bytes; the Rust `bytes[0..size]` panics when the slice is
shorter. -/
def bytesToData (w : Width) : Option (List Nat) → RRes (Option Int)
  | none => .ok none
  | some bs =>
    if w.dataSize ≤ bs.length then
      .ok (some (toSigned w.dataSize (leVal (bs.take w.dataSize))))
    else .hostPanic .sliceTooShort

/-- `PL0VM::read_data`: `bytes_to_data(&self.program.get(offset..))`. -/
def readData (w : Width) (program : List Nat) (offset : Nat) : RRes (Option Int) :=
  bytesToData w (getSuffix program offset)

/-- The `pop_data` closure: `none` when fewer than `data_size` bytes are on
the stack, otherwise the decoded top value and the truncated stack. -/
def popData (w : Width) (stack : List Nat) : Option (Int × List Nat) :=
  if stack.length < w.dataSize then none
  else
    some (toSigned w.dataSize (leVal ((stack.drop (stack.length - w.dataSize)).take w.dataSize)),
      stack.take (stack.length - w.dataSize))

/-- The `push_data` closure: append the value's `data_size` little-endian
two's-complement bytes (`Data::to_bytes`). -/
def pushData (w : Width) (stack : List Nat) (v : Int) : List Nat :=
  stack ++ toLeBytes w.dataSize (toRep w.dataSize v)

/-- `Vec::resize(n, 0)`: zero-fill up to `n`, or truncate down to `n`. -/
def listResize (l : List Nat) (n : Nat) : List Nat :=
  if l.length ≤ n then l ++ List.replicate (n - l.length) 0 else l.take n

/-- The `set_addr` closure: grow the stack with zero-fill so that
`pos + data_size` fits, then splice the value's bytes in at `pos`. -/
def setAddr (w : Width) (stack : List Nat) (pos : Nat) (v : Int) : List Nat :=
  let stack' :=
    if stack.length < pos + w.dataSize then
      stack ++ List.replicate (pos + w.dataSize - stack.length) 0
    else stack
  stack'.take pos ++ toLeBytes w.dataSize (toRep w.dataSize v) ++ stack'.drop (pos + w.dataSize)

/-- The `offsetted` closure: `start.checked_add_signed(offset).expect(..)`;
a negative target panics the host. -/
def offsetted (start : Nat) (offset : Int) : RRes Nat :=
  if (start : Int) + offset < 0 then .hostPanic .invalidVarOffset
  else .ok ((start : Int) + offset).toNat

/-- UTF-8 validity of a byte sequence (what `String::from_utf8` checks). -/
def validUtf8 : List Nat → Bool
  | [] => true
  | b :: bs =>
    if b < 0x80 then validUtf8 bs
    else if 0xC2 ≤ b ∧ b ≤ 0xDF then
      match bs with
      | c1 :: bs' => if 0x80 ≤ c1 ∧ c1 ≤ 0xBF then validUtf8 bs' else false
      | [] => false
    else if 0xE0 ≤ b ∧ b ≤ 0xEF then
      match bs with
      | c1 :: c2 :: bs' =>
        let lo1 := if b = 0xE0 then 0xA0 else 0x80
        let hi1 := if b = 0xED then 0x9F else 0xBF
        if lo1 ≤ c1 ∧ c1 ≤ hi1 ∧ 0x80 ≤ c2 ∧ c2 ≤ 0xBF then validUtf8 bs' else false
      | _ => false
    else if 0xF0 ≤ b ∧ b ≤ 0xF4 then
      match bs with
      | c1 :: c2 :: c3 :: bs' =>
        let lo1 := if b = 0xF0 then 0x90 else 0x80
        let hi1 := if b = 0xF4 then 0x8F else 0xBF
        if lo1 ≤ c1 ∧ c1 ≤ hi1 ∧ 0x80 ≤ c2 ∧ c2 ≤ 0xBF ∧ 0x80 ≤ c3 ∧ c3 ≤ 0xBF then
          validUtf8 bs'
        else false
      | _ => false
    else false

/-- In-bounds byte access `v[i]` where boundedness was already established
(used only behind the `len <= 4` guards). -/
def getByte (l : List Nat) (i : Nat) : Nat := l.getD i 0

/-! ## One iteration of the execution loop (`PL0VM::execute`) -/

/-- Outcome of one iteration of `execute`'s main `loop`. -/
inductive StepRes
  | next (s : VMState)
  | halt (s : VMState)
  | err (e : VmErr)
  | hostPanic (p : PanicKind)
  | blocked
deriving DecidableEq

/-- One iteration of `execute`'s fetch-decode-dispatch loop. `next` continues
the loop, `halt` is the normal termination (`ReturnProc` from procedure 0 or
`EndOfCode`), `err` is a structured diagnostic followed by an abort,
`hostPanic` is a Rust panic, `blocked` is `InputToAddr` waiting forever. -/
def step (s : VMState) : StepRes :=
  let w := s.bits
  match s.program.get? s.pc with
  | none => .hostPanic .indexOutOfBounds
  | some byte =>
    match decodeOp byte with
    | none => .err .unknownOpcode
    | some op =>
      let pc1 := s.pc + 1
      match op with
      | .EntryProc =>
        -- pc += ARG_SIZE (skip the body-length operand), then read proc id and var bytes
        match readArg s.program (pc1 + 2) with
        | none => .err .invalidArgRead
        | some procI =>
          if procI < 0 then .err .enterInvalidProc
          else
            match readArg s.program (pc1 + 4) with
            | none => .err .invalidArgRead
            | some varlenArg =>
              match s.procedures.get? procI.toNat with
              | none => .hostPanic .indexOutOfBounds
              | some p =>
                let fp' := p.framePtr
                .next { s with
                  pc := pc1 + 6, fp := fp',
                  stack := listResize s.stack (fp' + usizeOfInt varlenArg) }
      | .ReturnProc =>
        if s.curProc = 0 then .halt { s with pc := pc1 }
        else
          match s.procedures.get? s.curProc with
          | none => .hostPanic .indexOutOfBounds
          | some p =>
            let st1 := s.stack.take p.framePtr
            -- three u64 drains from the top; a stack shorter than 8 bytes panics
            if st1.length < 8 then .hostPanic .indexOutOfBounds
            else
              let newProc := leVal (st1.drop (st1.length - 8))
              let st2 := st1.take (st1.length - 8)
              if st2.length < 8 then .hostPanic .indexOutOfBounds
              else
                let newFp := leVal (st2.drop (st2.length - 8))
                let st3 := st2.take (st2.length - 8)
                if st3.length < 8 then .hostPanic .indexOutOfBounds
                else
                  let newPc := leVal (st3.drop (st3.length - 8))
                  let st4 := st3.take (st3.length - 8)
                  .next { s with pc := newPc, fp := newFp, curProc := newProc, stack := st4 }
      | .CallProc =>
        match readArg s.program pc1 with
        | none => .err .invalidArgRead
        | some procId =>
          if procId < 0 then .err .callInvalidProc
          else
            let pc2 := pc1 + 2
            let st1 := s.stack ++ toLeBytes 8 pc2 ++ toLeBytes 8 s.fp ++ toLeBytes 8 s.curProc
            match s.procedures.get? procId.toNat with
            | none => .hostPanic .indexOutOfBounds
            | some p =>
              .next { s with
                pc := p.startPos, curProc := procId.toNat, stack := st1,
                procedures := s.procedures.set procId.toNat { p with framePtr := st1.length } }
      | .PushValueLocalVar =>
        match readArg s.program pc1 with
        | none => .err .invalidArgRead
        | some addr =>
          if addr < 0 then .err .invalidLocalVarVal
          else
            match offsetted s.fp addr with
            | .hostPanic p => .hostPanic p
            | .ok a =>
              match bytesToData w (getSuffix s.stack a) with
              | .hostPanic p => .hostPanic p
              | .ok none => .err .invalidStackRead
              | .ok (some v) => .next { s with pc := pc1 + 2, stack := pushData w s.stack v }
      | .PushValueMainVar =>
        match readArg s.program pc1 with
        | none => .err .invalidArgRead
        | some addr =>
          if addr < 0 then .err .invalidMainVarVal
          else
            match s.procedures.get? 0 with
            | none => .hostPanic .indexOutOfBounds
            | some p0 =>
              match offsetted p0.framePtr addr with
              | .hostPanic p => .hostPanic p
              | .ok a =>
                match bytesToData w (getSuffix s.stack a) with
                | .hostPanic p => .hostPanic p
                | .ok none => .err .invalidStackRead
                | .ok (some v) => .next { s with pc := pc1 + 2, stack := pushData w s.stack v }
      | .PushValueGlobalVar =>
        match readArg s.program pc1 with
        | none => .err .invalidArgRead
        | some addr =>
          match readArg s.program (pc1 + 2) with
          | none => .err .invalidArgRead
          | some procIdx =>
            if addr < 0 then .err .invalidGlobalVarVal
            else
              match s.procedures.get? (usizeOfInt procIdx) with
              | none => .hostPanic .indexOutOfBounds
              | some p =>
                match offsetted p.framePtr addr with
                | .hostPanic pk => .hostPanic pk
                | .ok a =>
                  match bytesToData w (getSuffix s.stack a) with
                  | .hostPanic pk => .hostPanic pk
                  | .ok none => .err .invalidStackRead
                  | .ok (some v) => .next { s with pc := pc1 + 4, stack := pushData w s.stack v }
      | .PushAddressLocalVar =>
        match readArg s.program pc1 with
        | none => .err .invalidArgRead
        | some addr =>
          if addr < 0 then .err .invalidLocalVarAddr
          else
            match offsetted s.fp addr with
            | .hostPanic p => .hostPanic p
            | .ok a =>
              match bytesToData w (some (toLeBytes 8 a)) with
              | .hostPanic p => .hostPanic p
              | .ok none => .err .invalidStackRead
              | .ok (some v) => .next { s with pc := pc1 + 2, stack := pushData w s.stack v }
      | .PushAddressMainVar =>
        match readArg s.program pc1 with
        | none => .err .invalidArgRead
        | some addr =>
          if addr < 0 then .err .invalidMainVarAddr
          else
            match s.procedures.get? 0 with
            | none => .hostPanic .indexOutOfBounds
            | some p0 =>
              match offsetted p0.framePtr addr with
              | .hostPanic p => .hostPanic p
              | .ok a =>
                match bytesToData w (some (toLeBytes 8 a)) with
                | .hostPanic p => .hostPanic p
                | .ok none => .err .invalidStackRead
                | .ok (some v) => .next { s with pc := pc1 + 2, stack := pushData w s.stack v }
      | .PushAddressGlobalVar =>
        match readArg s.program pc1 with
        | none => .err .invalidArgRead
        | some addr =>
          match readArg s.program (pc1 + 2) with
          | none => .err .invalidArgRead
          | some procIdx =>
            if addr < 0 then .err .invalidGlobalVarAddr
            else
              match s.procedures.get? (usizeOfInt procIdx) with
              | none => .hostPanic .indexOutOfBounds
              | some p =>
                match offsetted p.framePtr addr with
                | .hostPanic pk => .hostPanic pk
                | .ok a =>
                  match bytesToData w (some (toLeBytes 8 a)) with
                  | .hostPanic pk => .hostPanic pk
                  | .ok none => .err .invalidStackRead
                  | .ok (some v) => .next { s with pc := pc1 + 4, stack := pushData w s.stack v }
      | .PushConstant =>
        match readArg s.program pc1 with
        | none => .err .invalidArgRead
        | some c =>
          if c < 0 then .err .invalidConstant
          else
            match s.constants.get? c.toNat with
            | none => .hostPanic .indexOutOfBounds
            | some cd => .next { s with pc := pc1 + 2, stack := pushData w s.stack cd }
      | .StoreValue =>
        match popData w s.stack with
        | none => .err .invalidStackRead
        | some (v, st1) =>
          match popData w st1 with
          | none => .err .invalidStackRead
          | some (addr, st2) =>
            .next { s with pc := pc1, stack := setAddr w st2 (usizeOfInt addr) v }
      | .OutputValue =>
        match popData w s.stack with
        | none => .err .invalidStackRead
        | some (_, st1) => .next { s with pc := pc1, stack := st1 }
      | .InputToAddr =>
        match popData w s.stack with
        | none => .err .invalidStackRead
        | some (addr, st1) =>
          match s.input with
          | [] => .blocked
          | num :: rest =>
            match offsetted s.fp addr with
            | .hostPanic p => .hostPanic p
            | .ok a =>
              match bytesToData w (some (toLeBytes 8 (toRep 8 num))) with
              | .hostPanic p => .hostPanic p
              | .ok none => .err .invalidStackRead
              | .ok (some v) =>
                .next { s with pc := pc1, stack := setAddr w st1 a v, input := rest }
      | .Minusify =>
        match popData w s.stack with
        | none => .err .invalidStackRead
        | some (v, st1) =>
          .next { s with
            pc := pc1,
            stack := pushData w st1 (toSigned w.dataSize (toRep w.dataSize (-v))) }
      | .IsOdd =>
        match popData w s.stack with
        | none => .err .invalidStackRead
        | some (v, st1) =>
          .next { s with
            pc := pc1,
            stack := pushData w st1 (if Int.tmod v 2 = 1 then 1 else 0) }
      | .OpAdd =>
        match popData w s.stack with
        | none => .err .invalidStackRead
        | some (r, st1) =>
          match popData w st1 with
          | none => .err .invalidStackRead
          | some (l, st2) =>
            .next { s with
              pc := pc1,
              stack := pushData w st2 (toSigned w.dataSize (toRep w.dataSize (asI64 (l + r)))) }
      | .OpSubtract =>
        match popData w s.stack with
        | none => .err .invalidStackRead
        | some (r, st1) =>
          match popData w st1 with
          | none => .err .invalidStackRead
          | some (l, st2) =>
            .next { s with
              pc := pc1,
              stack := pushData w st2 (toSigned w.dataSize (toRep w.dataSize (asI64 (l - r)))) }
      | .OpMultiply =>
        match popData w s.stack with
        | none => .err .invalidStackRead
        | some (r, st1) =>
          match popData w st1 with
          | none => .err .invalidStackRead
          | some (l, st2) =>
            .next { s with
              pc := pc1,
              stack := pushData w st2 (toSigned w.dataSize (toRep w.dataSize (asI64 (l * r)))) }
      | .OpDivide =>
        match popData w s.stack with
        | none => .err .invalidStackRead
        | some (r, st1) =>
          match popData w st1 with
          | none => .err .invalidStackRead
          | some (l, st2) =>
            if r = 0 then .hostPanic .divideByZero
            else if l = -(2 ^ 63) ∧ r = -1 then .hostPanic .divOverflow
            else
              .next { s with
                pc := pc1,
                stack := pushData w st2 (toSigned w.dataSize (toRep w.dataSize (Int.tdiv l r))) }
      | .CompareEq =>
        match popData w s.stack with
        | none => .err .invalidStackRead
        | some (r, st1) =>
          match popData w st1 with
          | none => .err .invalidStackRead
          | some (l, st2) =>
            .next { s with pc := pc1, stack := pushData w st2 (if l = r then 1 else 0) }
      | .CompareNotEq =>
        match popData w s.stack with
        | none => .err .invalidStackRead
        | some (r, st1) =>
          match popData w st1 with
          | none => .err .invalidStackRead
          | some (l, st2) =>
            .next { s with pc := pc1, stack := pushData w st2 (if l ≠ r then 1 else 0) }
      | .CompareLT =>
        match popData w s.stack with
        | none => .err .invalidStackRead
        | some (r, st1) =>
          match popData w st1 with
          | none => .err .invalidStackRead
          | some (l, st2) =>
            .next { s with pc := pc1, stack := pushData w st2 (if l < r then 1 else 0) }
      | .CompareGT =>
        match popData w s.stack with
        | none => .err .invalidStackRead
        | some (r, st1) =>
          match popData w st1 with
          | none => .err .invalidStackRead
          | some (l, st2) =>
            .next { s with pc := pc1, stack := pushData w st2 (if r < l then 1 else 0) }
      | .CompareLTEq =>
        match popData w s.stack with
        | none => .err .invalidStackRead
        | some (r, st1) =>
          match popData w st1 with
          | none => .err .invalidStackRead
          | some (l, st2) =>
            .next { s with pc := pc1, stack := pushData w st2 (if l ≤ r then 1 else 0) }
      | .CompareGTEq =>
        match popData w s.stack with
        | none => .err .invalidStackRead
        | some (r, st1) =>
          match popData w st1 with
          | none => .err .invalidStackRead
          | some (l, st2) =>
            .next { s with pc := pc1, stack := pushData w st2 (if r ≤ l then 1 else 0) }
      | .Jump =>
        match readArg s.program pc1 with
        | none => .err .invalidArgRead
        | some off =>
          match offsetted (pc1 + 2) off with
          | .hostPanic p => .hostPanic p
          | .ok t => .next { s with pc := t }
      | .JumpIfFalse =>
        match popData w s.stack with
        | none => .err .invalidStackRead
        | some (v, st1) =>
          match readArg s.program pc1 with
          | none => .err .invalidArgRead
          | some off =>
            if v = 0 then
              match offsetted (pc1 + 2) off with
              | .hostPanic p => .hostPanic p
              | .ok t => .next { s with pc := t, stack := st1 }
            else .next { s with pc := pc1 + 2, stack := st1 }
      | .PutString =>
        if s.program.length < pc1 then .hostPanic .indexOutOfBounds
        else
          let strb := (s.program.drop pc1).takeWhile (fun b => b ≠ 0)
          if validUtf8 strb then .next { s with pc := pc1 + strb.length + 1 }
          else .err .invalidStr
      | .Pop =>
        if s.debug then
          match popData w s.stack with
          | none => .err .invalidStackRead
          | some (_, st1) => .next { s with pc := pc1, stack := st1 }
        else
          match popData w s.stack with
          | none => .next { s with pc := pc1 }
          | some (_, st1) => .next { s with pc := pc1, stack := st1 }
      | .Swap =>
        match popData w s.stack with
        | none => .err .invalidStackRead
        | some (off, st1) =>
          match bytesToData w (getSuffix st1 (usizeOfInt off)) with
          | .hostPanic p => .hostPanic p
          | .ok none => .err .invalidStackRead
          | .ok (some v) => .next { s with pc := pc1, stack := pushData w st1 v }
      | .EndOfCode => .halt { s with pc := pc1 }
      | .Put => .hostPanic .todoUnimplemented
      | .Get => .hostPanic .todoUnimplemented
      | .OpAddAddr => .hostPanic .todoUnimplemented

/-! ## Iterating the loop -/

/-- Result of running the execution loop to completion (with fuel;
`running` is only reached when the fuel runs out). -/
inductive ExecResult
  | halted (s : VMState)
  | err (e : VmErr)
  | hostPanic (p : PanicKind)
  | blocked
  | running (s : VMState)
deriving DecidableEq

/-- Run `execute`'s main loop for at most `fuel` iterations. -/
def runLoop : Nat → VMState → ExecResult
  | 0, s => .running s
  | fuel + 1, s =>
    match step s with
    | .next s' => runLoop fuel s'
    | .halt s' => .halted s'
    | .err e => .err e
    | .hostPanic p => .hostPanic p
    | .blocked => .blocked

/-- The state after exactly `n` ordinary (`next`) iterations, `none` when the
loop stops (in any way) earlier. -/
def stepN : Nat → VMState → Option VMState
  | 0, s => some s
  | n + 1, s =>
    match step s with
    | .next s' => stepN n s'
    | _ => none

/-! ### Observation helpers for stating the call/return-matching property -/

/-- The opcode the loop would dispatch next from state `s`. -/
def execOpAt (s : VMState) : Option OpCode :=
  (s.program.get? s.pc).bind decodeOp

/-- Call-nesting contribution of the instruction at `s`: `+1` for a
`CallProc`, `-1` for a `ReturnProc` that actually returns (`curProc ≠ 0`). -/
def callRetDelta (s : VMState) : Int :=
  match execOpAt s with
  | some .CallProc => 1
  | some .ReturnProc => if s.curProc = 0 then 0 else -1
  | _ => 0

/-- Net call-nesting depth accumulated over the next `n` executed
instructions starting at `s` (0 when the loop stops early). -/
def depthFrom (s : VMState) : Nat → Int
  | 0 => 0
  | n + 1 =>
    callRetDelta s +
      match step s with
      | .next s' => depthFrom s' n
      | _ => 0

/-! ## Loading (`PL0VM::load_from_file`, `PL0VM::load_data`) -/

/-- `PL0VM::load_from_file` after the file bytes were read: returns the
`Ok(..)` boolean (`false` when the buffer has no width field or the width is
not 2/4/8) together with the resulting `bits` tag (left at its `B16(0)`
default on failure). `PL0VM::from_file` wraps this with `Ok(_) => Ok(pl0vm)`,
i.e. it returns the VM object regardless of the boolean. -/
def loadFromFile (program : List Nat) : Bool × Width :=
  match readArg program 2 with
  | none => (false, .b16)
  | some v =>
    if v = 2 then (true, .b16)
    else if v = 4 then (true, .b32)
    else if v = 8 then (true, .b64)
    else (false, .b16)

/-- Result of the forward scan inside `load_data` (before the `unwrap`s). -/
inductive LoadScanRes
  | ok (procs : List (Option Procedure)) (pc : Nat)
  | err (e : VmErr)
  | hostPanic (p : PanicKind)
deriving DecidableEq

/-- The forward scan of `load_data`: arguments are fuel, `pc`, `rem_bytes`,
`procedure_count` and the procedure array. The fuel is a model artifact: the
Rust loop needs no fuel because `pc` strictly increases, so any fuel larger
than `program.length` is never exhausted. -/
def loadScan (prog : List Nat) : Nat → Nat → Int → Int → List (Option Procedure) → LoadScanRes
  | 0, _, _, _, _ => .hostPanic .outOfFuel
  | fuel + 1, pc, remBytes, count, procs =>
    match prog.get? pc with
    | none => .err .preloadError
    | some byte =>
      let opc := pc
      let pc := pc + 1
      if remBytes = 0 ∧ byte = 0x1A then
        match readArg prog pc with
        | none => .err .preloadError
        | some newRem =>
          let pc := pc + 2
          match readArg prog pc with
          | none => .err .preloadError
          | some pidArg =>
            let pid := usizeOfInt pidArg
            let pc := pc + 4
            if procs.length ≤ pid then .err .invalidPreloadProcedure
            else
              let procs := procs.set pid (some ⟨pc - 1 - 6, 0⟩)
              let count := count - 1
              let remBytes := newRem - ((pc : Int) - (opc : Int))
              if remBytes ≤ 0 ∧ count = 0 then .ok procs pc
              else loadScan prog fuel pc remBytes count procs
      else
        let remBytes := remBytes - ((pc : Int) - (opc : Int))
        if remBytes ≤ 0 ∧ count = 0 then .ok procs pc
        else loadScan prog fuel pc remBytes count procs

/-- Result of `load_data`. -/
inductive LoadDataRes
  | ok (procs : List Procedure) (consts : List Int)
  | err (e : VmErr)
  | hostPanic (p : PanicKind)
deriving DecidableEq

/-- `procedure.unwrap()` over the scanned array: panics on a slot no
`EntryProc` filled. -/
def allSome : List (Option Procedure) → Option (List Procedure)
  | [] => some []
  | none :: _ => none
  | some p :: rest => (allSome rest).map (p :: ·)

/-- The constant-pool read of `load_data`: `count` fixed-width records
starting at `pos` (each `read_data(..).expect(..)`). -/
def constantsRead (w : Width) (prog : List Nat) (pos : Nat) : Nat → Option (List Int)
  | 0 => some []
  | n + 1 =>
    match readData w prog pos with
    | .ok (some v) => (constantsRead w prog (pos + w.dataSize) n).map (v :: ·)
    | _ => none

/-- `PL0VM::load_data`: procedure-table scan, `unwrap` of every slot, then
the constant pool to end of file. -/
def loadData (prog : List Nat) (w : Width) : LoadDataRes :=
  match readArg prog 0 with
  | none => .hostPanic .unwrapNone
  | some pcount =>
    match loadScan prog (prog.length + 1) 4 0 pcount (List.replicate (usizeOfInt pcount) none) with
    | .err e => .err e
    | .hostPanic p => .hostPanic p
    | .ok oprocs pc =>
      match allSome oprocs with
      | none => .hostPanic .unwrapNone
      | some procs =>
        if prog.length < pc then .hostPanic .usizeOverflow
        else
          match constantsRead w prog pc ((prog.length - pc) / w.dataSize) with
          | none => .hostPanic .unwrapNone
          | some cs => .ok procs cs

/-! ## The `execute` entry point -/

/-- Outcome of `execute`'s pre-loop phase: either an abort result, or the
state that enters the main loop. -/
inductive PreludeRes
  | stop (r : ExecResult)
  | go (s : VMState)
deriving DecidableEq

/-- The part of `PL0VM::execute` before the main loop: the
`len <= 4 || program[3] > 0` check, the architecture check, `load_data`,
and the initial execution state (`pc = procedures[0].start_pos`, empty
stack, `fp = 0`, `cur_proc_i = 0`). -/
def executePrelude (debug : Bool) (input : List Int) (program : List Nat) : PreludeRes :=
  let w := (loadFromFile program).2
  if program.length ≤ 4 then .stop (.err .invalidFile)
  else if 0 < getByte program 3 then .stop (.err .invalidFile)
  else
    match readArg program 2 with
    | none => .stop (.err .failedArchRead)
    | some arch =>
      if arch ≠ 2 ∧ arch ≠ 4 ∧ arch ≠ 8 then .stop (.err .archInvalid)
      else
        match loadData program w with
        | .err e => .stop (.err e)
        | .hostPanic p => .stop (.hostPanic p)
        | .ok procs consts =>
          match procs.get? 0 with
          | none => .stop (.hostPanic .indexOutOfBounds)
          | some p0 =>
            .go { program := program, bits := w, debug := debug, procedures := procs,
                  constants := consts, pc := p0.startPos, stack := [], fp := 0,
                  curProc := 0, input := input }

/-- `PL0VM::execute` with the given fuel for the main loop, on a VM object
built by `from_file` (which keeps the buffer and the decoded width tag
whatever `load_from_file`'s boolean said). -/
def runProgram (debug : Bool) (input : List Int) (fuel : Nat) (program : List Nat) : ExecResult :=
  match executePrelude debug input program with
  | .stop r => r
  | .go s => runLoop fuel s

/-! ## The Static Analyzer (`PL0VM::print_analysis`) -/

/-- The header gate of `print_analysis` (its `len <= 4 || program[3] > 0`
check, the unreachable-read guards and the architecture check): `some e`
when analysis aborts before decoding any instruction, `none` when it goes on
to the per-instruction listing. -/
def printAnalysisHeader (program : List Nat) : Option VmErr :=
  if program.length ≤ 4 then some .invalidFile
  else if 0 < getByte program 3 then some .invalidFile
  else
    match readArg program 0 with
    | none => some .unreachableCode
    | some _ =>
      match readArg program 2 with
      | none => some .unreachableCode
      | some arch =>
        if arch ≠ 2 ∧ arch ≠ 4 ∧ arch ≠ 8 then some .archInvalid
        else none

/-- The absolute target `print_analysis` computes and prints for a
`Jump`/`JumpIfFalse` whose offset operand sits at byte position `pc`:
`(pc + ARG_SIZE).checked_add_signed(arg)`; `none` when the operand cannot be
read or the target leaves the address space. -/
def analyzerJumpTarget (program : List Nat) (pc : Nat) : Option Nat :=
  match readArg program pc with
  | none => none
  | some arg =>
    if ((pc + 2 : Nat) : Int) + arg < 0 then none
    else some (((pc + 2 : Nat) : Int) + arg).toNat

/-! ## Concrete inputs used by the claim theorems -/

/-- A 52-byte program (header `{procCount = 2, width = 2}`) whose `main`
stores the constant 1 into its variable at address 0 and calls procedure 1;
procedure 1 returns when the variable is 0 and otherwise decrements it and
calls itself recursively. One recursive re-entry happens before the outer
return. -/
def c1prog : List Nat :=
  [0x02, 0x00, 0x02, 0x00,
   -- main: EntryProc(len = 18, id = 0, reserved = 2)
   0x1A, 0x12, 0x00, 0x00, 0x00, 0x02, 0x00,
   0x03, 0x00, 0x00,        -- PushAddressLocalVar 0
   0x06, 0x00, 0x00,        -- PushConstant 0   (= 1)
   0x07,                    -- StoreValue
   0x16, 0x01, 0x00,        -- CallProc 1
   0x17,                    -- ReturnProc
   -- procedure 1: EntryProc(len = 28, id = 1, reserved = 2)
   0x1A, 0x1C, 0x00, 0x01, 0x00, 0x02, 0x00,
   0x01, 0x00, 0x00,        -- PushValueMainVar 0
   0x19, 0x0E, 0x00,        -- JumpIfFalse +14  (to the ReturnProc)
   0x04, 0x00, 0x00,        -- PushAddressMainVar 0
   0x01, 0x00, 0x00,        -- PushValueMainVar 0
   0x06, 0x00, 0x00,        -- PushConstant 0   (= 1)
   0x0D,                    -- OpSubtract
   0x07,                    -- StoreValue
   0x16, 0x01, 0x00,        -- CallProc 1 (recursive)
   0x17,                    -- ReturnProc
   -- constant pool: [1]
   0x01, 0x00]

/-- The state `execute` builds for `c1prog` before its main loop. -/
def c1s0 : VMState :=
  { program := c1prog, bits := .b16, debug := false,
    procedures := [⟨4, 0⟩, ⟨22, 0⟩], constants := [1],
    pc := 4, stack := [], fp := 0, curProc := 0, input := [] }

/-- The state of `c1prog`'s run immediately before the outer `CallProc 1`
(four loop iterations in): stack holds main's one variable (value 1). -/
def c1sPre : VMState :=
  { program := c1prog, bits := .b16, debug := false,
    procedures := [⟨4, 0⟩, ⟨22, 0⟩], constants := [1],
    pc := 18, stack := [0x01, 0x00], fp := 0, curProc := 0, input := [] }

/-- A 23-byte program (`{procCount = 1, width = 2}`): main pushes the
constants 1 and 0 and executes `OpDivide` (i.e. computes 1 / 0). -/
def c4prog : List Nat :=
  [0x01, 0x00, 0x02, 0x00,
   0x1A, 0x0F, 0x00, 0x00, 0x00, 0x00, 0x00,  -- EntryProc(len = 15, id = 0, reserved = 0)
   0x06, 0x00, 0x00,        -- PushConstant 0  (= 1)
   0x06, 0x01, 0x00,        -- PushConstant 1  (= 0)
   0x0F,                    -- OpDivide
   0x17,                    -- ReturnProc
   0x01, 0x00, 0x00, 0x00]  -- constant pool: [1, 0]

/-- An 18-byte program (`{procCount = 2, width = 2}`) with two `EntryProc`
declarations for procedure id 0: the first at byte 4 (body length 7), the
second at byte 11 inside nothing (body length 0). -/
def c9prog : List Nat :=
  [0x02, 0x00, 0x02, 0x00,
   0x1A, 0x07, 0x00, 0x00, 0x00, 0x00, 0x00,  -- EntryProc(len = 7, id = 0, reserved = 0)
   0x1A, 0x00, 0x00, 0x00, 0x00, 0x00, 0x00]  -- EntryProc(len = 0, id = 0, reserved = 0)

/-- A state about to execute `Jump +5` at pc 0 (C2 witness). -/
def c2ws : VMState :=
  { program := [0x18, 0x05, 0x00], bits := .b16, debug := false,
    procedures := [], constants := [], pc := 0, stack := [], fp := 0,
    curProc := 0, input := [] }

/-- A state about to execute `JumpIfFalse +3` at pc 0 with 0 on the stack. -/
def c2wsf : VMState :=
  { program := [0x19, 0x03, 0x00], bits := .b16, debug := false,
    procedures := [], constants := [], pc := 0, stack := [0x00, 0x00], fp := 0,
    curProc := 0, input := [] }

/-- A state about to execute `PushConstant 0` with an empty constant pool. -/
def c5sConst : VMState :=
  { program := [0x06, 0x00, 0x00], bits := .b16, debug := false,
    procedures := [⟨4, 0⟩], constants := [], pc := 0, stack := [], fp := 0,
    curProc := 0, input := [] }

/-- A state about to execute `CallProc 1` with a one-entry procedure table. -/
def c5sCall : VMState :=
  { program := [0x16, 0x01, 0x00], bits := .b16, debug := false,
    procedures := [⟨4, 0⟩], constants := [], pc := 0, stack := [], fp := 0,
    curProc := 0, input := [] }

/-- A state about to execute `IsOdd` with the 16-bit value −3 on the stack. -/
def c6ces : VMState :=
  { program := [0x0B], bits := .b16, debug := false,
    procedures := [], constants := [], pc := 0, stack := [0xFD, 0xFF], fp := 0,
    curProc := 0, input := [] }

/-- A state about to execute `IsOdd` with the 16-bit value 3 on the stack. -/
def c6ws : VMState :=
  { program := [0x0B], bits := .b16, debug := false,
    procedures := [], constants := [], pc := 0, stack := [0x03, 0x00], fp := 0,
    curProc := 0, input := [] }

/-- A width-8 state about to execute `OpDivide` with left = i64::MIN and
right = −1 on the stack. -/
def c7ces : VMState :=
  { program := [0x0F], bits := .b64, debug := false,
    procedures := [], constants := [], pc := 0,
    stack := [0, 0, 0, 0, 0, 0, 0, 0x80, 0xFF, 0xFF, 0xFF, 0xFF, 0xFF, 0xFF, 0xFF, 0xFF],
    fp := 0, curProc := 0, input := [] }

/-- A width-2 state about to execute `OpAdd` with left = 32767, right = 1. -/
def c7ws : VMState :=
  { program := [0x0C], bits := .b16, debug := false,
    procedures := [], constants := [], pc := 0, stack := [0xFF, 0x7F, 0x01, 0x00],
    fp := 0, curProc := 0, input := [] }

/-- A state about to execute `PushAddressLocalVar 0` then `Swap`, with
`fp = 32768` and a 32770-byte stack of 1-bytes: the frame address 32768 does
not fit in a non-negative `i16`. -/
def c8ceA : VMState :=
  { program := [0x03, 0x00, 0x00, 0x1D], bits := .b16, debug := false,
    procedures := [], constants := [], pc := 0, stack := List.replicate 32770 1,
    fp := 32768, curProc := 0, input := [] }

/-- The same start as `c8ceA` but with the program `PushValueLocalVar 0`. -/
def c8ceV : VMState :=
  { program := [0x00, 0x00, 0x00], bits := .b16, debug := false,
    procedures := [], constants := [], pc := 0, stack := List.replicate 32770 1,
    fp := 32768, curProc := 0, input := [] }

/-- The state after `c8ceA` executes `PushAddressLocalVar 0`: the address
32768 was narrowed to the 16-bit value −32768, bytes `[0x00, 0x80]`. -/
def c8s1 : VMState :=
  { c8ceA with pc := 3, stack := List.replicate 32770 1 ++ [0x00, 0x80] }

/-- A small state about to execute `PushAddressLocalVar 0` then `Swap`
(C8 witness), stack `[7, 0]`, `fp = 0`. -/
def c8wA : VMState :=
  { program := [0x03, 0x00, 0x00, 0x1D], bits := .b16, debug := false,
    procedures := [], constants := [], pc := 0, stack := [0x07, 0x00],
    fp := 0, curProc := 0, input := [] }

/-- The same start as `c8wA` but with the program `PushValueLocalVar 0`. -/
def c8wV : VMState :=
  { program := [0x00, 0x00, 0x00], bits := .b16, debug := false,
    procedures := [], constants := [], pc := 0, stack := [0x07, 0x00],
    fp := 0, curProc := 0, input := [] }

/-- A state about to execute `Pop` on a too-short (empty) stack with the
trace flag off. -/
def c10sQuiet : VMState :=
  { program := [0x1C], bits := .b16, debug := false,
    procedures := [], constants := [], pc := 0, stack := [], fp := 0,
    curProc := 0, input := [] }

/-- The same state as `c10sQuiet` with the trace flag on. -/
def c10sTrace : VMState :=
  { program := [0x1C], bits := .b16, debug := true,
    procedures := [], constants := [], pc := 0, stack := [], fp := 0,
    curProc := 0, input := [] }

/-- A state about to execute `PushConstant −1` (C5 witness, negative index). -/
def c5wNeg : VMState :=
  { program := [0x06, 0xFF, 0xFF], bits := .b16, debug := false,
    procedures := [], constants := [], pc := 0, stack := [], fp := 0,
    curProc := 0, input := [] }

/-- A 5-byte buffer whose header width field is 3 (C3 witness). -/
def c3wProg : List Nat := [0x00, 0x00, 0x03, 0x00, 0x17]

/-! ## Helper lemmas about bytes and narrowing -/

theorem toLeBytes_length (w n : Nat) : (toLeBytes w n).length = w := by
  induction w generalizing n with
  | zero => rfl
  | succ w ih => simp [toLeBytes, ih]

theorem leVal_toLeBytes (w n : Nat) : leVal (toLeBytes w n) = n % 2 ^ (8 * w) := by
  induction w generalizing n with
  | zero => simp [toLeBytes, leVal, Nat.mod_one]
  | succ w ih =>
    have h : (2 : Nat) ^ (8 * (w + 1)) = 256 * 2 ^ (8 * w) := by ring
    rw [toLeBytes, leVal, ih, h, Nat.mod_mul]

theorem toLeBytes_take (j k n : Nat) : (toLeBytes (j + k) n).take j = toLeBytes j n := by
  induction j generalizing n with
  | zero => rfl
  | succ j ih => simp [toLeBytes, Nat.succ_add, ih]

theorem toLeBytes_congr (w m n : Nat) (h : m % 2 ^ (8 * w) = n % 2 ^ (8 * w)) :
    toLeBytes w m = toLeBytes w n := by
  induction w generalizing m n with
  | zero => rfl
  | succ w ih =>
    have h2 : (2 : Nat) ^ (8 * (w + 1)) = 256 * 2 ^ (8 * w) := by ring
    rw [h2] at h
    have hm : m % 256 = n % 256 := by
      have h256 : (256 : Nat) ∣ 256 * 2 ^ (8 * w) := ⟨_, rfl⟩
      calc m % 256 = m % (256 * 2 ^ (8 * w)) % 256 := (Nat.mod_mod_of_dvd m h256).symm
        _ = n % (256 * 2 ^ (8 * w)) % 256 := by rw [h]
        _ = n % 256 := Nat.mod_mod_of_dvd n h256
    have hd : m / 256 % 2 ^ (8 * w) = n / 256 % 2 ^ (8 * w) := by
      have := congrArg (· / 256) h
      simpa [Nat.mod_mul_right_div_self] using this
    rw [toLeBytes, toLeBytes, hm, ih _ _ hd]

theorem toRep_lt (w : Nat) (v : Int) : toRep w v < 2 ^ (8 * w) := by
  have h : (0 : Int) < 2 ^ (8 * w) := by positivity
  have h1 := Int.emod_lt_of_pos v h
  have h0 := Int.emod_nonneg v (ne_of_gt h)
  have hcast : (((2 : Nat) ^ (8 * w) : Nat) : Int) = (2 : Int) ^ (8 * w) := by push_cast; ring
  unfold toRep
  omega

theorem toRep_toSigned (w n : Nat) (h : n < 2 ^ (8 * w)) : toRep w (toSigned w n) = n := by
  unfold toRep toSigned
  split
  · have : ((n : Int)) % 2 ^ (8 * w) = n := by
      apply Int.emod_eq_of_lt (by positivity)
      exact_mod_cast h
    omega
  · have hge : 2 ^ (8 * w - 1) ≤ n := by omega
    have : ((n : Int) - 2 ^ (8 * w)) % 2 ^ (8 * w) = ((n : Int)) % 2 ^ (8 * w) := by
      simp [Int.sub_emod]
    rw [this]
    have : ((n : Int)) % 2 ^ (8 * w) = n := by
      apply Int.emod_eq_of_lt (by positivity)
      exact_mod_cast h
    omega

theorem toSigned_eq_of_lt (w n : Nat) (h : n < 2 ^ (8 * w - 1)) : toSigned w n = n := by
  unfold toSigned
  split
  · rfl
  · omega

theorem dataSize_le_8 (w : Width) : w.dataSize ≤ 8 := by
  cases w <;> decide

theorem dataSize_pos (w : Width) : 0 < w.dataSize := by
  cases w <;> decide

theorem toLeBytes8_take (w : Width) (n : Nat) :
    (toLeBytes 8 n).take w.dataSize = toLeBytes w.dataSize n := by
  cases w
  · simpa using toLeBytes_take 2 6 n
  · simpa using toLeBytes_take 4 4 n
  · exact List.take_of_length_le (le_of_eq (toLeBytes_length 8 n))

theorem pushData_def' (w : Width) (st : List Nat) (v : Int) :
    pushData w st v = st ++ toLeBytes w.dataSize (toRep w.dataSize v) := rfl

theorem toLeBytes_toRep_length (w : Width) (v : Int) :
    (toLeBytes w.dataSize (toRep w.dataSize v)).length = w.dataSize :=
  toLeBytes_length _ _

theorem popData_append (w : Width) (st bs : List Nat) (h : bs.length = w.dataSize) :
    popData w (st ++ bs) = some (toSigned w.dataSize (leVal bs), st) := by
  unfold popData
  have hlen : (st ++ bs).length = st.length + w.dataSize := by simp [h]
  rw [hlen]
  have hns : ¬ (st.length + w.dataSize < w.dataSize) := by omega
  rw [if_neg hns]
  have hsub : st.length + w.dataSize - w.dataSize = st.length := by omega
  rw [hsub, List.drop_left, List.take_left, ← h, List.take_length]

theorem popData_pushData (w : Width) (st : List Nat) (v : Int) :
    popData w (pushData w st v) = some (toSigned w.dataSize (toRep w.dataSize v), st) := by
  rw [pushData_def', popData_append w st _ (toLeBytes_toRep_length w v), leVal_toLeBytes,
    Nat.mod_eq_of_lt (toRep_lt _ _)]

theorem bytesToData_getSuffix (w : Width) (l : List Nat) (off : Nat)
    (h : off + w.dataSize ≤ l.length) :
    bytesToData w (getSuffix l off) =
      .ok (some (toSigned w.dataSize (leVal ((l.drop off).take w.dataSize)))) := by
  unfold getSuffix
  rw [if_pos (show off ≤ l.length by omega)]
  have hlen : (l.drop off).length = l.length - off := List.length_drop off l
  simp only [bytesToData]
  rw [if_pos (by omega)]

theorem pushData_length (w : Width) (st : List Nat) (v : Int) :
    (pushData w st v).length = st.length + w.dataSize := by
  unfold pushData
  rw [List.length_append, toLeBytes_length]

theorem stepN_zero (s : VMState) : stepN 0 s = some s := rfl

theorem stepN_next (n : Nat) (s s' : VMState) (h : step s = .next s') :
    stepN (n + 1) s = stepN n s' := by
  simp [stepN, h]

theorem stepN_stop (n : Nat) (s : VMState) (e : VmErr) (h : step s = .err e) :
    stepN (n + 1) s = none := by
  simp [stepN, h]

theorem step_pushAddressLocalVar (s : VMState) (a : Int) (A : Nat) (v : Int)
    (hb : s.program[s.pc]? = some 0x03)
    (ha : readArg s.program (s.pc + 1) = some a)
    (hnn : 0 ≤ a)
    (hoff : offsetted s.fp a = .ok A)
    (hbd : bytesToData s.bits (some (toLeBytes 8 A)) = .ok (some v)) :
    step s = .next { s with pc := s.pc + 1 + 2, stack := pushData s.bits s.stack v } := by
  have hdec : decodeOp 0x03 = some OpCode.PushAddressLocalVar := by decide
  simp only [step, List.get?_eq_getElem?, hb, hdec, ha]
  rw [if_neg (not_lt.mpr hnn)]
  simp only [hoff, hbd]

theorem step_pushValueLocalVar (s : VMState) (a : Int) (A : Nat) (v : Int)
    (hb : s.program[s.pc]? = some 0x00)
    (ha : readArg s.program (s.pc + 1) = some a)
    (hnn : 0 ≤ a)
    (hoff : offsetted s.fp a = .ok A)
    (hrd : bytesToData s.bits (getSuffix s.stack A) = .ok (some v)) :
    step s = .next { s with pc := s.pc + 1 + 2, stack := pushData s.bits s.stack v } := by
  have hdec : decodeOp 0x00 = some OpCode.PushValueLocalVar := by decide
  simp only [step, List.get?_eq_getElem?, hb, hdec, ha]
  rw [if_neg (not_lt.mpr hnn)]
  simp only [hoff, hrd]

theorem step_swap_fault (s : VMState) (v : Int) (st1 : List Nat)
    (hb : s.program[s.pc]? = some 0x1D)
    (hpop : popData s.bits s.stack = some (v, st1))
    (hgs : getSuffix st1 (usizeOfInt v) = none) :
    step s = .err .invalidStackRead := by
  have hdec : decodeOp 0x1D = some OpCode.Swap := by decide
  have hbd : bytesToData s.bits (getSuffix st1 (usizeOfInt v)) = .ok none := by
    rw [hgs]
    rfl
  simp only [step, List.get?_eq_getElem?, hb, hdec, hpop, hbd]

theorem toRep_congr (w : Nat) (x y : Int) (h : x % 2 ^ (8 * w) = y % 2 ^ (8 * w)) :
    toRep w x = toRep w y := by
  unfold toRep; rw [h]

theorem intPow_cast (k : Nat) : (((2 : Nat) ^ k : Nat) : Int) = (2 : Int) ^ k := by
  push_cast; ring

theorem toRep_natCast (w : Nat) (n : Nat) : toRep w (n : Int) = n % 2 ^ (8 * w) := by
  unfold toRep
  rw [← intPow_cast]
  rfl

theorem toRep_eq_toRep8_mod (w : Width) (q : Int) :
    toRep w.dataSize q = toRep 8 q % 2 ^ (8 * w.dataSize) := by
  have hle := dataSize_le_8 w
  have hdvd : ((2 : Int) ^ (8 * w.dataSize)) ∣ (2 : Int) ^ (8 * 8) :=
    pow_dvd_pow 2 (by omega)
  have hmm : q % 2 ^ (8 * w.dataSize) = (q % 2 ^ (8 * 8)) % 2 ^ (8 * w.dataSize) :=
    (Int.emod_emod_of_dvd q hdvd).symm
  have hnn : (0 : Int) ≤ q % 2 ^ (8 * 8) := Int.emod_nonneg q (by positivity)
  have hq8 : ((toRep 8 q : Nat) : Int) = q % 2 ^ (8 * 8) := by
    unfold toRep
    exact Int.toNat_of_nonneg hnn
  calc toRep w.dataSize q = toRep w.dataSize ((toRep 8 q : Nat) : Int) := by
        apply toRep_congr
        rw [hq8, ← hmm]
    _ = toRep 8 q % 2 ^ (8 * w.dataSize) := toRep_natCast _ _

theorem asI64_emod (w : Width) (x : Int) :
    asI64 x % 2 ^ (8 * w.dataSize) = x % 2 ^ (8 * w.dataSize) := by
  have hle := dataSize_le_8 w
  have hdvd : ((2 : Int) ^ (8 * w.dataSize)) ∣ (2 : Int) ^ (8 * 8) :=
    pow_dvd_pow 2 (by omega)
  have hq8 : ((toRep 8 x : Nat) : Int) = x % 2 ^ (8 * 8) := by
    unfold toRep
    exact Int.toNat_of_nonneg (Int.emod_nonneg x (by positivity))
  have hbase : (x % 2 ^ (8 * 8)) % 2 ^ (8 * w.dataSize) = x % 2 ^ (8 * w.dataSize) :=
    Int.emod_emod_of_dvd x hdvd
  unfold asI64 toSigned
  split
  · rw [hq8, hbase]
  · rw [Int.sub_emod, hq8, hbase]
    have hz : ((2 : Int) ^ (8 * 8)) % 2 ^ (8 * w.dataSize) = 0 := by
      rcases hdvd with ⟨c, hc⟩
      rw [hc]
      exact Int.mul_emod_right _ _
    rw [hz, sub_zero, Int.emod_emod_of_dvd _ dvd_rfl]

theorem narrowBytes (w : Width) (q : Int) :
    toLeBytes w.dataSize (toRep w.dataSize (toSigned w.dataSize (toRep w.dataSize q)))
      = toLeBytes w.dataSize (toRep 8 q) := by
  rw [toRep_toSigned _ _ (toRep_lt _ _), toRep_eq_toRep8_mod]
  exact toLeBytes_congr _ _ _ (Nat.mod_mod_of_dvd _ dvd_rfl)

theorem narrowBytes_asI64 (w : Width) (q : Int) :
    toLeBytes w.dataSize (toRep w.dataSize (toSigned w.dataSize (toRep w.dataSize (asI64 q))))
      = toLeBytes w.dataSize (toRep 8 q) := by
  rw [toRep_toSigned _ _ (toRep_lt _ _)]
  rw [toRep_congr _ _ _ (asI64_emod w q)]
  rw [toRep_eq_toRep8_mod]
  exact toLeBytes_congr _ _ _ (Nat.mod_mod_of_dvd _ dvd_rfl)

/-! ## Claim C10 -/

/-- Claim C10: the observable behavior of `Pop` depends on the trace flag:
on a stack shorter than `data_size` bytes, `Pop` with `debug = false` leaves
the stack unchanged and continues with the next instruction, while `Pop`
with `debug = true` halts with a fatal stack-read error. -/
theorem c10_pop_debug_dependent (s : VMState)
    (hb : s.program[s.pc]? = some 0x1C)
    (hshort : s.stack.length < s.bits.dataSize) :
    (s.debug = false → step s = .next { s with pc := s.pc + 1 })
    ∧ (s.debug = true → step s = .err .invalidStackRead) := by
  have hpop : popData s.bits s.stack = none := by
    unfold popData
    rw [if_pos hshort]
  have hdec : decodeOp 0x1C = some OpCode.Pop := by decide
  constructor <;> intro hd <;> simp [step, hb, hdec, hd, hpop]

/-- Witness for C10 at the concrete states `c10sQuiet`/`c10sTrace`. -/
theorem c10_pop_debug_dependent_witness :
    step c10sQuiet = .next { c10sQuiet with pc := 1 }
    ∧ step c10sTrace = .err .invalidStackRead :=
  ⟨(c10_pop_debug_dependent c10sQuiet (by decide) (by decide)).1 rfl,
   (c10_pop_debug_dependent c10sTrace (by decide) (by decide)).2 rfl⟩

/-! ## Claim C6 -/

/-- Counterexample to claim C6 as stated: popping the 16-bit value −3 —
odd in the mathematical sense, since −3 mod 2 = 1 ≠ 0 — makes `IsOdd` push
the boolean 0 (bytes `[0, 0]`), not the claimed 1, because the Rust
`int % 2 == 1` uses the truncated remainder, which is −1 for −3. -/
theorem c6_negative_odd_pushes_false :
    step c6ces = .next { c6ces with pc := 1, stack := [0x00, 0x00] }
    ∧ (-3 : Int) % 2 = 1 := by
  constructor
  · decide
  · decide

/-- Claim C6 amended: `IsOdd` pushes the canonical boolean (in the
configured width) of the host's truncated remainder test `v % 2 == 1`, i.e.
1 exactly when the popped value is odd and positive, and 0 for every even
value and every negative value. -/
theorem c6_isodd_truncated_remainder (s : VMState) (v : Int) (st1 : List Nat)
    (hb : s.program[s.pc]? = some 0x0B)
    (hpop : popData s.bits s.stack = some (v, st1)) :
    step s = .next { s with
      pc := s.pc + 1,
      stack := pushData s.bits st1 (if Int.tmod v 2 = 1 then 1 else 0) } := by
  have hdec : decodeOp 0x0B = some OpCode.IsOdd := by decide
  simp [step, hb, hdec, hpop]

/-- Witness for the amended C6 at the concrete state `c6ws` (value 3). -/
theorem c6_isodd_truncated_remainder_witness :
    step c6ws = .next { c6ws with
      pc := 1,
      stack := pushData c6ws.bits [] (if Int.tmod 3 2 = 1 then 1 else 0) } :=
  c6_isodd_truncated_remainder c6ws 3 [] (by decide) (by decide)

/-! ## Claim C2 -/

/-- Claim C2: for `Jump` and for `JumpIfFalse` (when the popped value is 0),
the branch target is (offset-operand position + 2) + signed offset, and the
absolute target the Analyzer computes and prints for the instruction is
exactly the pc the Execution Engine branches to. -/
theorem c2_jump_targets_agree (s : VMState) (t : Nat)
    (ht : analyzerJumpTarget s.program (s.pc + 1) = some t) :
    (s.program[s.pc]? = some 0x18 →
      (∃ off, readArg s.program (s.pc + 1) = some off
        ∧ (t : Int) = ((s.pc + 1 + 2 : Nat) : Int) + off)
      ∧ step s = .next { s with pc := t })
    ∧ (s.program[s.pc]? = some 0x19 →
      ∀ v st1, popData s.bits s.stack = some (v, st1) → v = 0 →
        step s = .next { s with pc := t, stack := st1 }) := by
  cases harg : readArg s.program (s.pc + 1) with
  | none => simp [analyzerJumpTarget, harg] at ht
  | some off =>
    simp only [analyzerJumpTarget, harg] at ht
    by_cases hneg : ((s.pc + 1 + 2 : Nat) : Int) + off < 0
    · rw [if_pos hneg] at ht; cases ht
    · rw [if_neg hneg] at ht
      have ht' : (((s.pc + 1 + 2 : Nat) : Int) + off).toNat = t := by
        cases ht; rfl
      have hoff : offsetted (s.pc + 1 + 2) off = .ok t := by
        unfold offsetted
        rw [if_neg hneg, ht']
      constructor
      · intro hb
        have hdec : decodeOp 0x18 = some OpCode.Jump := by decide
        refine ⟨⟨off, rfl, by omega⟩, ?_⟩
        simp [step, hb, hdec, harg, hoff]
      · intro hb v st1 hpop hv
        have hdec : decodeOp 0x19 = some OpCode.JumpIfFalse := by decide
        simp [step, hb, hdec, harg, hpop, hv, hoff]

/-- Witness for C2: the concrete states `c2ws` (`Jump +5`, target 8) and
`c2wsf` (`JumpIfFalse +3` popping 0, target 6). -/
theorem c2_jump_targets_agree_witness :
    step c2ws = .next { c2ws with pc := 8 }
    ∧ step c2wsf = .next { c2wsf with pc := 6, stack := [] } :=
  ⟨((c2_jump_targets_agree c2ws 8 (by decide)).1 (by decide)).2,
   (c2_jump_targets_agree c2wsf 6 (by decide)).2 (by decide) 0 [] (by decide) rfl⟩

/-! ## Claim C5 -/

/-- Counterexample to claim C5 as stated: `PushConstant 0` against an empty
constant pool and `CallProc 1` against a one-entry procedure table both end
in the host's unchecked-indexing panic, not in a structured error. -/
theorem c5_out_of_range_index_panics :
    step c5sConst = .hostPanic .indexOutOfBounds
    ∧ step c5sCall = .hostPanic .indexOutOfBounds := by
  constructor
  · decide
  · decide

/-- Claim C5 amended: `PushConstant` with a negative index and `CallProc`
with a negative id emit a structured error and halt, but a non-negative
constant index at or past the pool length, and a non-negative procedure id
at or past the table length, reach the host's unchecked-indexing panic
instead of a structured error. -/
theorem c5_index_checks (s : VMState) (c : Int)
    (harg : readArg s.program (s.pc + 1) = some c) :
    (s.program[s.pc]? = some 0x06 →
      (c < 0 → step s = .err .invalidConstant)
      ∧ (0 ≤ c → s.constants.length ≤ c.toNat → step s = .hostPanic .indexOutOfBounds))
    ∧ (s.program[s.pc]? = some 0x16 →
      (c < 0 → step s = .err .callInvalidProc)
      ∧ (0 ≤ c → s.procedures.length ≤ c.toNat → step s = .hostPanic .indexOutOfBounds)) := by
  constructor
  · intro hb
    have hdec : decodeOp 0x06 = some OpCode.PushConstant := by decide
    constructor
    · intro hc
      simp [step, hb, hdec, harg, hc]
    · intro hc hlen
      have hnone : s.constants[c.toNat]? = none := List.getElem?_eq_none hlen
      simp [step, hb, hdec, harg, hnone, not_lt.mpr hc]
  · intro hb
    have hdec : decodeOp 0x16 = some OpCode.CallProc := by decide
    constructor
    · intro hc
      simp [step, hb, hdec, harg, hc]
    · intro hc hlen
      have hnone : s.procedures[c.toNat]? = none := List.getElem?_eq_none hlen
      simp [step, hb, hdec, harg, hnone, not_lt.mpr hc]

/-- Witness for the amended C5: `PushConstant −1` errors structurally, and
`CallProc 1` against a one-entry table panics. -/
theorem c5_index_checks_witness :
    step c5wNeg = .err .invalidConstant
    ∧ step c5sCall = .hostPanic .indexOutOfBounds :=
  ⟨((c5_index_checks c5wNeg (-1) (by decide)).1 (by decide)).1 (by decide),
   ((c5_index_checks c5sCall 1 (by decide)).2 (by decide)).2 (by decide) (by decide)⟩

/-! ## Claim C7 -/

/-- Counterexample to claim C7 as stated: at width 8 with left = −2^63 and
right = −1 on the stack (values whose quotient overflows `i64`), `OpDivide`
does not push the low 8 bytes of the two's-complement result — the host
division panics. -/
theorem c7_min_div_neg_one_panics :
    popData c7ces.bits c7ces.stack
      = some (-1, [0x00, 0x00, 0x00, 0x00, 0x00, 0x00, 0x00, 0x80])
    ∧ popData c7ces.bits [0x00, 0x00, 0x00, 0x00, 0x00, 0x00, 0x00, 0x80]
      = some (-(2 ^ 63), [])
    ∧ step c7ces = .hostPanic .divOverflow := by
  refine ⟨by decide, by decide, by decide⟩

/-- Claim C7 amended: `OpAdd`/`OpSubtract`/`OpMultiply` pop right then left
and push exactly the low `w` bytes of the 64-bit two's-complement result for
all operand values; `OpDivide` does the same whenever the right operand is
nonzero and `(left, right) ≠ (−2^63, −1)` — in those two excluded cases the
host division panics (see C4) instead of wrapping. -/
theorem c7_arith_wraparound (s : VMState) (r l : Int) (st1 st2 : List Nat)
    (hpop1 : popData s.bits s.stack = some (r, st1))
    (hpop2 : popData s.bits st1 = some (l, st2)) :
    (s.program[s.pc]? = some 0x0C →
      step s = .next { s with
        pc := s.pc + 1, stack := st2 ++ toLeBytes s.bits.dataSize (toRep 8 (l + r)) })
    ∧ (s.program[s.pc]? = some 0x0D →
      step s = .next { s with
        pc := s.pc + 1, stack := st2 ++ toLeBytes s.bits.dataSize (toRep 8 (l - r)) })
    ∧ (s.program[s.pc]? = some 0x0E →
      step s = .next { s with
        pc := s.pc + 1, stack := st2 ++ toLeBytes s.bits.dataSize (toRep 8 (l * r)) })
    ∧ (s.program[s.pc]? = some 0x0F → r ≠ 0 → ¬(l = -(2 ^ 63) ∧ r = -1) →
      step s = .next { s with
        pc := s.pc + 1, stack := st2 ++ toLeBytes s.bits.dataSize (toRep 8 (Int.tdiv l r)) }) := by
  refine ⟨?_, ?_, ?_, ?_⟩
  · intro hb
    have hdec : decodeOp 0x0C = some OpCode.OpAdd := by decide
    simp [step, hb, hdec, hpop1, hpop2, pushData, narrowBytes_asI64]
  · intro hb
    have hdec : decodeOp 0x0D = some OpCode.OpSubtract := by decide
    simp [step, hb, hdec, hpop1, hpop2, pushData, narrowBytes_asI64]
  · intro hb
    have hdec : decodeOp 0x0E = some OpCode.OpMultiply := by decide
    simp [step, hb, hdec, hpop1, hpop2, pushData, narrowBytes_asI64]
  · intro hb hr hnot
    have hdec : decodeOp 0x0F = some OpCode.OpDivide := by decide
    simp [step, hb, hdec, hpop1, hpop2, pushData, narrowBytes, hr]
    intro hl h1
    exact hnot ⟨by rw [hl]; norm_num, h1⟩

/-- Witness for the amended C7: adding 32767 + 1 at width 2 wraps. -/
theorem c7_arith_wraparound_witness :
    step c7ws = .next { c7ws with
      pc := c7ws.pc + 1,
      stack := [] ++ toLeBytes c7ws.bits.dataSize (toRep 8 (32767 + 1)) } :=
  (c7_arith_wraparound c7ws 1 32767 [0xFF, 0x7F] [] (by decide) (by decide)).1 (by decide)

/-! ## Claim C3 -/

theorem drop_take_two (l : List Nat) (n : Nat) (a b : Nat)
    (h1 : l[n]? = some a) (h2 : l[n + 1]? = some b) :
    (l.drop n).take 2 = [a, b] := by
  induction n generalizing l with
  | zero =>
    cases l with
    | nil => cases h1
    | cons x xs =>
      cases xs with
      | nil => cases h2
      | cons y ys =>
        simp only [List.getElem?_cons_zero, Option.some.injEq] at h1
        simp only [List.getElem?_cons_succ, List.getElem?_cons_zero, Option.some.injEq] at h2
        simp [h1, h2]
  | succ n ih =>
    cases l with
    | nil => cases h1
    | cons x xs =>
      simp only [List.getElem?_cons_succ] at h1 h2
      simpa using ih xs h1 h2

/-- Counterexample to claim C3 as stated: the 4-byte buffer
`[0, 0, 2, 0]` has length ≤ 4, yet `load_from_file` succeeds on it (the
width field at bytes [2..4) is readable and valid, and no length check
happens at load time). -/
theorem c3_length_four_loads_successfully :
    ([0x00, 0x00, 0x02, 0x00] : List Nat).length ≤ 4
    ∧ (loadFromFile [0x00, 0x00, 0x02, 0x00]).1 = true := by
  constructor
  · decide
  · decide

/-- Claim C3 amended: `load_from_file` reports failure (returns `false`;
`from_file` still hands back the VM object) for every buffer of length < 4
— a 4-byte buffer with a valid width field loads successfully — and for
every unreadable or invalid width field; in particular for a width field of
3 the load reports failure and both `execute` and `print_analysis` abort
with a format error (invalid-file or invalid-architecture) before decoding
any code byte. -/
theorem c3_load_header_validation (prog : List Nat) (fuel : Nat) :
    (prog.length < 4 → (loadFromFile prog).1 = false)
    ∧ (∀ v, readArg prog 2 = some v → v ≠ 2 → v ≠ 4 → v ≠ 8 →
        (loadFromFile prog).1 = false)
    ∧ (prog[2]? = some 3 → prog[3]? = some 0 →
        (loadFromFile prog).1 = false
        ∧ (runProgram false [] fuel prog = .err .invalidFile
            ∨ runProgram false [] fuel prog = .err .archInvalid)
        ∧ (printAnalysisHeader prog = some .invalidFile
            ∨ printAnalysisHeader prog = some .archInvalid)) := by
  refine ⟨?_, ?_, ?_⟩
  · intro hlen
    have hnone : readArg prog 2 = none := by
      unfold readArg
      rw [if_neg (by omega)]
    simp [loadFromFile, hnone]
  · intro v harg h2 h4 h8
    simp [loadFromFile, harg, h2, h4, h8]
  · intro h2 h3
    have hlen2 : 2 < prog.length := by
      rcases List.getElem?_eq_some.mp h2 with ⟨h, _⟩
      exact h
    have hlen3 : 3 < prog.length := by
      rcases List.getElem?_eq_some.mp h3 with ⟨h, _⟩
      exact h
    have ht := drop_take_two prog 2 3 0 h2 h3
    have harg : readArg prog 2 = some 3 := by
      unfold readArg
      rw [if_pos (by omega), ht]
      decide
    refine ⟨by simp [loadFromFile, harg], ?_, ?_⟩
    · by_cases hlen : prog.length ≤ 4
      · left
        simp [runProgram, executePrelude, hlen]
      · right
        have hbyte : getByte prog 3 = 0 := by
          unfold getByte
          simp [List.getD, h3]
        simp [runProgram, executePrelude, hlen, hbyte, harg]
    · by_cases hlen : prog.length ≤ 4
      · left
        simp [printAnalysisHeader, hlen]
      · right
        have hbyte : getByte prog 3 = 0 := by
          unfold getByte
          simp [List.getD, h3]
        have harg0 : ∃ u, readArg prog 0 = some u := by
          refine ⟨toSigned 2 (leVal ((prog.drop 0).take 2)), ?_⟩
          unfold readArg
          rw [if_pos (by omega)]
        rcases harg0 with ⟨u, hu⟩
        simp [printAnalysisHeader, hlen, hbyte, harg, hu]

/-- Witness for the amended C3 at the 5-byte width-3 buffer `c3wProg`. -/
theorem c3_load_header_validation_witness :
    (loadFromFile c3wProg).1 = false
    ∧ (runProgram false [] 5 c3wProg = .err .invalidFile
        ∨ runProgram false [] 5 c3wProg = .err .archInvalid)
    ∧ (printAnalysisHeader c3wProg = some .invalidFile
        ∨ printAnalysisHeader c3wProg = some .archInvalid) :=
  (c3_load_header_validation c3wProg 5).2.2 (by decide) (by decide)

/-! ## Claim C1 -/

/-- Claim C1 refuted on the code: on `c1prog` the pair formed by the
`CallProc 1` at byte 18 (reached after 4 iterations, stack length 2,
`fp = 0`) and the `ReturnProc` executed 14 iterations later is matched — the
call-nesting depth stays ≥ 1 strictly between them and returns to 0 exactly
with that return, which runs with `curProc = 1` — yet immediately after the
return the stack has length 4, not 2: the inner recursive `CallProc 1`
overwrote `procedures[1].frame_ptr` (to 52) and the return truncates to that
stale value, popping misaligned bytes instead of the pushed linkage record.
-/
theorem c1_recursive_call_breaks_stack_neutrality :
    executePrelude false [] c1prog = .go c1s0
    ∧ stepN 4 c1s0 = some c1sPre
    ∧ execOpAt c1sPre = some .CallProc
    ∧ readArg c1prog 19 = some 1
    ∧ c1sPre.stack.length = 2
    ∧ c1sPre.fp = 0
    ∧ callRetDelta c1sPre = 1
    ∧ ((List.range 14).all fun d => decide (1 ≤ depthFrom c1sPre (d + 1))) = true
    ∧ depthFrom c1sPre 15 = 0
    ∧ (stepN 14 c1sPre).map (fun u => (execOpAt u, u.curProc)) = some (some .ReturnProc, 1)
    ∧ (stepN 15 c1sPre).map (fun u => (u.stack.length, u.fp)) = some (4, 0) := by
  decide

/-! ## Claim C4 -/

/-- Claim C4 refuted on the code (the spec flags this as an open question):
running `c4prog`, whose main procedure computes 1 / 0, ends in the host's
division-by-zero panic — a process trap inherited from the host language —
not in a structured runtime fault. -/
theorem c4_divide_by_zero_panics :
    runProgram false [] 100 c4prog = .hostPanic .divideByZero := by
  decide

/-! ## Claim C9 -/

/-- Claim C9 refuted on the code (the spec flags this as an open question):
on `c9prog`, whose two `EntryProc`s (at bytes 4 and 11) both declare
procedure id 0, the loader scan silently overwrites `procedures[0]` with the
later entry (`start_pos` 11, not 4) and reports no error; `load_data` then
panics unwrapping the never-filled slot 1 instead of aborting with a
duplicate-procedure-entry format error. -/
theorem c9_duplicate_entryproc_overwrites_then_panics :
    loadScan c9prog (c9prog.length + 1) 4 0 2 (List.replicate 2 none)
      = .ok [some ⟨11, 0⟩, none] 18
    ∧ c9prog[4]? = some 0x1A
    ∧ readArg c9prog 7 = some 0
    ∧ c9prog[11]? = some 0x1A
    ∧ readArg c9prog 14 = some 0
    ∧ loadData c9prog .b16 = .hostPanic .unwrapNone := by
  decide

/-! ## Claim C8 -/

/-- Claim C8 amended: executing `PushAddressLocalVar addr` followed by
`Swap` (state `s`) leaves the same stack as executing
`PushValueLocalVar addr` (state `t`, same width, stack and frame pointer),
for every non-negative operand `addr` with `fp + addr + dataWidth` in
bounds, provided additionally that `fp + addr` is representable as a
non-negative value of the configured width
(`fp + addr < 2 ^ (8·dataWidth − 1)`); without that extra bound the pushed
address is narrowed to a negative value and `Swap` faults while
`PushValueLocalVar` succeeds. -/
theorem c8_push_address_swap_eq_push_value (s t : VMState) (a : Int)
    (hw : t.bits = s.bits) (hst : t.stack = s.stack) (hfp : t.fp = s.fp)
    (hb1 : s.program[s.pc]? = some 0x03)
    (ha1 : readArg s.program (s.pc + 1) = some a)
    (hb2 : s.program[s.pc + 3]? = some 0x1D)
    (hb3 : t.program[t.pc]? = some 0x00)
    (ha2 : readArg t.program (t.pc + 1) = some a)
    (hnn : 0 ≤ a)
    (hbound : s.fp + a.toNat + s.bits.dataSize ≤ s.stack.length)
    (hrepr : s.fp + a.toNat < 2 ^ (8 * s.bits.dataSize - 1)) :
    (stepN 2 s).map (fun u => u.stack) = (stepN 1 t).map (fun u => u.stack)
    ∧ (stepN 1 t).isSome = true := by
  have hds8 := dataSize_le_8 s.bits
  have hds0 := dataSize_pos s.bits
  have hAlt : s.fp + a.toNat < 2 ^ (8 * s.bits.dataSize) :=
    lt_of_lt_of_le hrepr (Nat.pow_le_pow_right (by norm_num) (by omega))
  have hA64 : s.fp + a.toNat < 2 ^ 64 :=
    lt_of_lt_of_le hrepr (Nat.pow_le_pow_right (by norm_num) (by omega))
  have hoff : offsetted s.fp a = .ok (s.fp + a.toNat) := by
    unfold offsetted
    rw [if_neg (by omega)]
    congr 1
    omega
  have hval : toSigned s.bits.dataSize (leVal ((toLeBytes 8 (s.fp + a.toNat)).take s.bits.dataSize))
      = ((s.fp + a.toNat : Nat) : Int) := by
    rw [toLeBytes8_take, leVal_toLeBytes, Nat.mod_eq_of_lt hAlt, toSigned_eq_of_lt _ _ hrepr]
  have hbd : bytesToData s.bits (some (toLeBytes 8 (s.fp + a.toNat)))
      = .ok (some ((s.fp + a.toNat : Nat) : Int)) := by
    simp only [bytesToData]
    rw [if_pos (by rw [toLeBytes_length]; exact hds8), hval]
  have hstep1 : step s = .next { s with
      pc := s.pc + 1 + 2,
      stack := s.stack ++ toLeBytes s.bits.dataSize (s.fp + a.toNat) } := by
    have hdec : decodeOp 0x03 = some OpCode.PushAddressLocalVar := by decide
    have hpush1 : pushData s.bits s.stack ((s.fp + a.toNat : Nat) : Int)
        = s.stack ++ toLeBytes s.bits.dataSize (s.fp + a.toNat) := by
      unfold pushData
      rw [toRep_natCast, Nat.mod_eq_of_lt hAlt]
    simp only [step, List.get?_eq_getElem?, hb1, hdec, ha1]
    rw [if_neg (not_lt.mpr hnn)]
    simp only [hoff, hbd, hpush1]
  have hpop : popData s.bits (s.stack ++ toLeBytes s.bits.dataSize (s.fp + a.toNat))
      = some (toSigned s.bits.dataSize (leVal (toLeBytes s.bits.dataSize (s.fp + a.toNat))), s.stack) :=
    popData_append s.bits _ _ (toLeBytes_length _ _)
  have hpopval : toSigned s.bits.dataSize (leVal (toLeBytes s.bits.dataSize (s.fp + a.toNat)))
      = ((s.fp + a.toNat : Nat) : Int) := by
    rw [leVal_toLeBytes, Nat.mod_eq_of_lt hAlt, toSigned_eq_of_lt _ _ hrepr]
  have husize : usizeOfInt ((s.fp + a.toNat : Nat) : Int) = s.fp + a.toNat := by
    unfold usizeOfInt
    rw [Int.emod_eq_of_lt (by positivity) (by exact_mod_cast hA64)]
    exact Int.toNat_natCast _
  have hread : bytesToData s.bits (getSuffix s.stack (s.fp + a.toNat))
      = .ok (some (toSigned s.bits.dataSize
          (leVal ((s.stack.drop (s.fp + a.toNat)).take s.bits.dataSize)))) :=
    bytesToData_getSuffix s.bits s.stack _ hbound
  have hb2' : s.program[s.pc + 1 + 2]? = some 0x1D := hb2
  have hstep2 : step { s with
      pc := s.pc + 1 + 2,
      stack := s.stack ++ toLeBytes s.bits.dataSize (s.fp + a.toNat) } = .next { s with
      pc := s.pc + 1 + 2 + 1,
      stack := pushData s.bits s.stack (toSigned s.bits.dataSize
        (leVal ((s.stack.drop (s.fp + a.toNat)).take s.bits.dataSize))) } := by
    have hdec : decodeOp 0x1D = some OpCode.Swap := by decide
    simp only [step, List.get?_eq_getElem?, hb2', hdec, hpop, hpopval, husize, hread]
  have hofft : offsetted t.fp a = .ok (s.fp + a.toNat) := by
    rw [hfp]
    exact hoff
  have hreadt : bytesToData t.bits (getSuffix t.stack (s.fp + a.toNat))
      = .ok (some (toSigned s.bits.dataSize
          (leVal ((s.stack.drop (s.fp + a.toNat)).take s.bits.dataSize)))) := by
    rw [hw, hst]
    exact hread
  have hstep3 : step t = .next { t with
      pc := t.pc + 1 + 2,
      stack := pushData s.bits s.stack (toSigned s.bits.dataSize
        (leVal ((s.stack.drop (s.fp + a.toNat)).take s.bits.dataSize))) } := by
    have hdec : decodeOp 0x00 = some OpCode.PushValueLocalVar := by decide
    simp only [step, List.get?_eq_getElem?, hb3, hdec, ha2]
    rw [if_neg (not_lt.mpr hnn)]
    simp only [hofft, hw, hst, hread]
  constructor
  · simp [stepN, hstep1, hstep2, hstep3]
  · simp [stepN, hstep3]

/-- Witness for the amended C8 at the small states `c8wA`/`c8wV`
(stack `[7, 0]`, `fp = 0`, `addr = 0`). -/
theorem c8_push_address_swap_eq_push_value_witness :
    (stepN 2 c8wA).map (fun u => u.stack) = (stepN 1 c8wV).map (fun u => u.stack)
    ∧ (stepN 1 c8wV).isSome = true :=
  c8_push_address_swap_eq_push_value c8wA c8wV 0 (by decide) (by decide) (by decide)
    (by decide) (by decide) (by decide) (by decide) (by decide) (by decide) (by decide)
    (by decide)

/-- Counterexample to claim C8 as stated: with `fp = 32768` at width 2 and a
32770-byte stack — so reading 2 bytes at stack offset `fp + 0` is in
bounds — `PushValueLocalVar 0` succeeds (stack grows to 32772 bytes), but
`PushAddressLocalVar 0` narrows the address 32768 to the 16-bit value
−32768, and the following `Swap` halts with a stack-read fault: the two
sequences do not leave the same stack. -/
theorem c8_large_frame_address_diverges :
    c8ceA.fp + (0 : Int).toNat + c8ceA.bits.dataSize ≤ c8ceA.stack.length
    ∧ stepN 2 c8ceA = none
    ∧ (stepN 1 c8ceV).map (fun u => u.stack.length) = some 32772 := by
  have hpush1 : pushData c8ceA.bits c8ceA.stack (-32768)
      = List.replicate 32770 1 ++ [0x00, 0x80] := by
    rw [pushData_def']
    rfl
  have h1 : step c8ceA = .next c8s1 := by
    have h := step_pushAddressLocalVar c8ceA 0 32768 (-32768) (by decide) (by decide)
      (by decide) (by decide) (by decide)
    rw [h, hpush1]
    rfl
  have hval : toSigned c8s1.bits.dataSize (leVal [0x00, 0x80]) = -32768 := by decide
  have hpop : popData c8s1.bits c8s1.stack = some (-32768, List.replicate 32770 1) := by
    show popData c8s1.bits (List.replicate 32770 1 ++ [0x00, 0x80]) = _
    rw [popData_append c8s1.bits (List.replicate 32770 1) [0x00, 0x80] (by decide), hval]
  have hgs : getSuffix (List.replicate 32770 1) (usizeOfInt (-32768)) = none := by
    unfold getSuffix
    rw [List.length_replicate]
    rw [if_neg (by decide)]
  have h2 : step c8s1 = .err .invalidStackRead :=
    step_swap_fault c8s1 (-32768) (List.replicate 32770 1) (by decide) hpop hgs
  have hlenV : c8ceV.stack.length = 32770 := by
    show (List.replicate 32770 1).length = 32770
    exact List.length_replicate 32770 1
  have hsuff : getSuffix c8ceV.stack 32768 = some (List.replicate 2 1) := by
    show getSuffix (List.replicate 32770 1) 32768 = _
    unfold getSuffix
    rw [List.length_replicate, if_pos (by decide), List.drop_replicate]
  have hrd : bytesToData c8ceV.bits (getSuffix c8ceV.stack 32768) = .ok (some 257) := by
    rw [hsuff]
    decide
  have hV : step c8ceV = .next { c8ceV with
      pc := c8ceV.pc + 1 + 2, stack := pushData c8ceV.bits c8ceV.stack 257 } :=
    step_pushValueLocalVar c8ceV 0 32768 257 (by decide) (by decide) (by decide)
      (by decide) hrd
  refine ⟨?_, ?_, ?_⟩
  · show 32768 + (0 : Int).toNat + Width.b16.dataSize ≤ (List.replicate 32770 1).length
    rw [List.length_replicate]
    decide
  · exact (stepN_next 1 c8ceA c8s1 h1).trans (stepN_stop 0 c8s1 _ h2)
  · rw [stepN_next 0 c8ceV _ hV, stepN_zero, Option.map_some']
    show some ((pushData c8ceV.bits c8ceV.stack 257).length) = some 32772
    rw [pushData_length, hlenV]
    decide
